import Mathlib

/-!
Verification of the wallet-service ledger core (package `gotechtask`).

The development is a shallow embedding of the Go sources:
* `internal/repo` — `transferOnce`, `Transfer`, `isDeadlock`, `GetBalance`,
  `GetLastTransactions`, the sentinel errors;
* `internal/api/handlers.go` — `postSend` validation and error mapping,
  `getLastTransactions` count clamping;
* `internal/db/seed.go` — `SeedInitialWallets`.

Go strings are Lean `String` (Go byte-wise comparison coincides with the
character-wise order on the ASCII hex addresses the service uses); the
`int64` balances are `Int` (the claims under study never approach the
64-bit range, so wrap-around is irrelevant and not modelled); fallible Go
functions returning `error` become `Except GoError _` or `Option GoError`.
The database state is explicit: a list of wallet rows plus the append-only
transactions log, threaded through `transferOnce`.
-/

namespace WalletService

/-- A row of the `wallets` table: unique address plus balance in cents,
as created by the migration `0001_init.up.sql`. -/
structure Wallet where
  address : String
  balance_cents : Int
deriving DecidableEq

/-- The caller-supplied columns of a row of the `transactions` table
(`id` and `created_at` are assigned by the store; the read-back side
with those columns is the `Transaction` struct below). -/
structure TxRecord where
  from_address : String
  to_address : String
  amount_cents : Int
deriving DecidableEq

/-- The database state visible to the transfer engine: the `wallets`
relation and the append-only `transactions` log. -/
structure DBState where
  wallets : List Wallet
  transactions : List TxRecord
deriving DecidableEq

/-- Go error values, as the handlers compare them (`==` against the
sentinels of `internal/repo`; everything else lands in `default`). -/
inductive GoError where
  /-- repo.ErrWalletNotFound -/
  | walletNotFound
  /-- repo.ErrInsufficientFunds -/
  | insufficientFunds
  /-- repo.ErrSameAddress -/
  | sameAddress
  /-- the ad-hoc errors.New "amount must be > 0" of transferOnce -/
  | amountNotPositive
  /-- the ad-hoc errors.New "could not complete transfer after retries" of Transfer -/
  | retriesExhausted
  /-- a *pgconn.PgError carrying a Postgres error code -/
  | pg (code : String)
  /-- ctx.Err() observed while sleeping between retries -/
  | ctxCanceled
  /-- any other storage-layer failure -/
  | other (msg : String)
deriving DecidableEq

/-- isDeadlock of internal/repo: errors.As to *pgconn.PgError and
code equal to the Postgres deadlock code 40P01. -/
def isDeadlock : GoError → Bool
  | GoError.pg code => code == "40P01"
  | _ => false

/-- The a1/a2 normalisation at the top of transferOnce:
a1, a2 := from, to; if a2 < a1 then swap. The first component is the
smaller address, so the locking query always names the two rows in
ascending address order. -/
def lockOrder (fromA toA : String) : String × String :=
  if toA < fromA then (toA, fromA) else (fromA, toA)

/-- Rows produced by the locking query of transferOnce,
SELECT address, balance_cents FROM wallets WHERE address = a1 OR
address = a2 ORDER BY address FOR UPDATE. The caller passes a1 < a2
(the components of lockOrder), so the ascending address order places
every a1 row before every a2 row. -/
def selectForUpdate (ws : List Wallet) (a1 a2 : String) : List Wallet :=
  ws.filter (fun w => w.address = a1) ++ ws.filter (fun w => w.address = a2)

/-- UPDATE wallets SET balance_cents = newBal WHERE address = addr. -/
def updateBalance (ws : List Wallet) (addr : String) (newBal : Int) : List Wallet :=
  ws.map (fun w => if w.address = addr then { w with balance_cents := newBal } else w)

/-- transferOnce of internal/repo: one attempt of the transfer engine.
Returns the Go error (or ok) together with the database state after the
attempt; every early return happens under the deferred tx.Rollback, so
the state component is the unchanged input state on every error path. -/
def transferOnce (st : DBState) (fromA toA : String) (amountCents : Int) :
    Except GoError Unit × DBState :=
  if fromA = toA then (Except.error GoError.sameAddress, st)
  else if amountCents ≤ 0 then (Except.error GoError.amountNotPositive, st)
  else
    match selectForUpdate st.wallets (lockOrder fromA toA).1 (lockOrder fromA toA).2 with
    | [r0, r1] =>
      let fromBal := if toA < fromA then r1.balance_cents else r0.balance_cents
      let toBal := if toA < fromA then r0.balance_cents else r1.balance_cents
      if fromBal < amountCents then (Except.error GoError.insufficientFunds, st)
      else
        (Except.ok (),
          { wallets := updateBalance (updateBalance st.wallets fromA (fromBal - amountCents))
              toA (toBal + amountCents)
            transactions := st.transactions ++
              [{ from_address := fromA, to_address := toA, amount_cents := amountCents }] })
    | _ => (Except.error GoError.walletNotFound, st)

/-- GetBalance of internal/repo: first row of
SELECT balance_cents FROM wallets WHERE address = $1, with sql.ErrNoRows
mapped to ErrWalletNotFound. -/
def GetBalance (st : DBState) (address : String) : Except GoError Int :=
  match st.wallets.find? (fun w => w.address = address) with
  | some w => Except.ok w.balance_cents
  | none => Except.error GoError.walletNotFound

/-- defaultBalanceCents of internal/db/seed.go. -/
def defaultBalanceCents : Int := 10000

/-- defaultWallets of internal/db/seed.go. -/
def defaultWallets : Nat := 10

/-- SeedInitialWallets of internal/db/seed.go on an empty table: inserts
one wallet per generated address, each with defaultBalanceCents, and an
empty transactions log. -/
def SeedInitialWallets (addrs : List String) : DBState :=
  { wallets := addrs.map (fun a => { address := a, balance_cents := defaultBalanceCents })
    transactions := [] }

/-- States reachable from initial population by transfer attempts.
Seeding generates distinct random addresses (the UNIQUE constraint on
wallets.address rejects a collision), and every subsequent mutation of
the two tables goes through transferOnce. -/
inductive Reachable : DBState → Prop where
  | seed (addrs : List String) (hnd : addrs.Nodup) (hlen : addrs.length = defaultWallets) :
      Reachable (SeedInitialWallets addrs)
  | step (st : DBState) (fromA toA : String) (amountCents : Int) :
      Reachable st → Reachable (transferOnce st fromA toA amountCents).2

/-- Sum of all account balances. -/
def totalBalance (st : DBState) : Int :=
  (st.wallets.map Wallet.balance_cents).sum

/-- Concrete ten-address initial population used by the witnesses. -/
def seedAddrs : List String :=
  ["a0", "a1", "a2", "a3", "a4", "a5", "a6", "a7", "a8", "a9"]

/-! The retry wrapper Transfer of internal/repo. -/

/-- maxAttempts of Transfer. -/
def maxAttempts : Nat := 10

/-- The backoff of attempt number `attempt` (counted from 0), in
milliseconds: 15*(attempt+1). -/
def backoffMs (attempt : Nat) : Nat := 15 * (attempt + 1)

/-- The sleep before the next attempt: backoff plus a random jitter
drawn by rand.Intn(15), i.e. a value in [0, 15). -/
def sleepMs (attempt : Nat) (jitter : Fin 15) : Nat := backoffMs attempt + jitter.val

/-- The retry loop of Transfer. The storage interaction of each
transferOnce call — including conflicts injected by concurrent
transactions — is abstracted into the oracle attemptErr giving the
error of the attempt with that index (none = success), since the loop
inspects nothing but the returned error value. cancelDuring tells
whether ctx.Done fires during the sleep that follows the given
attempt; in that case the loop returns ctx.Err(). fuel is the number
of loop iterations left; it starts at maxAttempts, and running out
produces the could-not-complete error. -/
def transferLoop (attemptErr : Nat → Option GoError) (cancelDuring : Nat → Bool) :
    Nat → Nat → Option GoError
  | _, 0 => some GoError.retriesExhausted
  | attempt, fuel + 1 =>
    match attemptErr attempt with
    | none => none
    | some e =>
      if isDeadlock e then
        if cancelDuring attempt then some GoError.ctxCanceled
        else transferLoop attemptErr cancelDuring (attempt + 1) fuel
      else some e

/-- Transfer of internal/repo: run the attempt loop from attempt 0 with
the full budget of maxAttempts iterations. -/
def Transfer (attemptErr : Nat → Option GoError) (cancelDuring : Nat → Bool) :
    Option GoError :=
  transferLoop attemptErr cancelDuring 0 maxAttempts

/-- The error mapping of the postSend handler of
internal/api/handlers.go: the switch compares the error returned by
Transfer against the three sentinel errors of internal/repo and every
other value — including the retry-exhaustion error — lands in the
default 500 internal-error branch. -/
def postSendErrStatus (e : GoError) : Nat × String :=
  match e with
  | GoError.walletNotFound => (404, "wallet not found")
  | GoError.insufficientFunds => (409, "insufficient funds")
  | GoError.sameAddress => (400, "from must differ from to")
  | _ => (500, "internal error")

/-! The query service: GetLastTransactions and its handler. -/

/-- The Transaction struct of internal/repo as scanned back from the
transactions relation, with the store-assigned ID and CreatedAt
(the timestamp modelled as an integer). -/
structure Transaction where
  ID : Int
  FromAddress : String
  ToAddress : String
  AmountCents : Int
  CreatedAt : Int
deriving DecidableEq

/-- GetLastTransactions of internal/repo. The SQL orders only by
created_at DESC and then applies LIMIT, so rows stands for the store's
response before the limit: some created_at-descending arrangement of
the transactions relation, with equal-timestamp rows in whatever order
the store produced. The Go code clamps n and scans the first n rows in
the order received. -/
def GetLastTransactions (n : Int) (rows : List Transaction) : List Transaction :=
  let n1 : Int := if n ≤ 0 then 10 else n
  let n2 : Int := if n1 > 100 then 100 else n1
  rows.take n2.toNat

/-- The count handling of the getLastTransactions handler of
internal/api/handlers.go: an absent count parameter defaults to 10,
then the same clamping as in the repo layer is applied. -/
def handlerCount (q : Option Int) : Int :=
  let n : Int := match q with | none => 10 | some v => v
  let n1 : Int := if n ≤ 0 then 10 else n
  if n1 > 100 then 100 else n1

/-- The two equal-timestamp records of the C9 counterexample. -/
def tx1 : Transaction :=
  { ID := 1, FromAddress := "a", ToAddress := "b", AmountCents := 100, CreatedAt := 5 }

/-- The second record of the C9 counterexample, same created_at as tx1
but a larger store-assigned identifier. -/
def tx2 : Transaction :=
  { ID := 2, FromAddress := "a", ToAddress := "b", AmountCents := 200, CreatedAt := 5 }

/-! The postSend request validation of internal/api/handlers.go. -/

/-- The decoded JSON body of a send request, the sendReq struct of the
handler. The float64 amount only feeds the comparison Amount <= 0 and
the truncating conversion int64(Amount * 100); it is modelled as a
rational number, which agrees with the float64 semantics on those two
uses for the decimal inputs of interest here. -/
structure SendReq where
  From : String
  To : String
  Amount : Rat
deriving DecidableEq

/-- The action postSend takes on a request: either a response is
written without consulting the repository, or the Transfer engine is
invoked with the given addresses and cent amount. -/
inductive SendOutcome where
  | rejected (status : Nat) (msg : String)
  | engine (fromA toA : String) (amountCents : Int)
deriving DecidableEq

/-- postSend of internal/api/handlers.go on a decoded body (none
models a JSON decode failure): the byte-length validation of both
addresses, the positivity check on the amount, the truncating
conversion to cents, and only then the call into the transfer engine. -/
def postSend (body : Option SendReq) : SendOutcome :=
  match body with
  | none => SendOutcome.rejected 400 "invalid json"
  | some req =>
    if req.From.utf8ByteSize ≠ 64 ∨ req.To.utf8ByteSize ≠ 64 then
      SendOutcome.rejected 400 "invalid address format"
    else if req.Amount ≤ 0 then
      SendOutcome.rejected 400 "amount must be > 0"
    else
      SendOutcome.engine req.From req.To ((req.Amount * 100).floor)

/-! Helper lemmas about the embedded SQL statements. -/

lemma address_updateFn (a : String) (v : Int) (w : Wallet) :
    (if w.address = a then { w with balance_cents := v } else w).address = w.address := by
  split <;> rfl

lemma updateBalance_map_address (ws : List Wallet) (a : String) (v : Int) :
    (updateBalance ws a v).map Wallet.address = ws.map Wallet.address := by
  unfold updateBalance
  rw [List.map_map]
  exact List.map_congr_left (fun w _ => address_updateFn a v w)

lemma updateBalance_of_forall_ne (ws : List Wallet) (a : String) (v : Int)
    (h : ∀ x ∈ ws, x.address ≠ a) : updateBalance ws a v = ws := by
  unfold updateBalance
  conv_rhs => rw [← List.map_id ws]
  exact List.map_congr_left (fun x hx => by simp [h x hx])

lemma mem_updateBalance_of_ne (ws : List Wallet) (a : String) (v : Int) (w : Wallet)
    (hw : w ∈ ws) (hne : w.address ≠ a) : w ∈ updateBalance ws a v := by
  unfold updateBalance
  refine List.mem_map.mpr ⟨w, hw, ?_⟩
  rw [if_neg hne]

lemma find?_addr_of_nodup :
    ∀ (ws : List Wallet), ((ws.map Wallet.address).Nodup) →
    ∀ w ∈ ws, ∀ (a : String), w.address = a →
    ws.find? (fun x => x.address = a) = some w := by
  intro ws
  induction ws with
  | nil => intro _ w hw; cases hw
  | cons h t ih =>
    intro hnd w hw a ha
    rw [List.map_cons, List.nodup_cons] at hnd
    rcases List.mem_cons.mp hw with rfl | hwt
    · exact List.find?_cons_of_pos _ (by simp [ha])
    · have hha : h.address ≠ a := by
        intro he
        apply hnd.1
        rw [he, ← ha]
        exact List.mem_map_of_mem _ hwt
      rw [List.find?_cons_of_neg _ (by simp [hha])]
      exact ih hnd.2 w hwt a ha

lemma filter_addr_of_nodup :
    ∀ (ws : List Wallet), ((ws.map Wallet.address).Nodup) →
    ∀ w ∈ ws, ∀ (a : String), w.address = a →
    ws.filter (fun x => x.address = a) = [w] := by
  intro ws
  induction ws with
  | nil => intro _ w hw; cases hw
  | cons h t ih =>
    intro hnd w hw a ha
    rw [List.map_cons, List.nodup_cons] at hnd
    rcases List.mem_cons.mp hw with rfl | hwt
    · rw [List.filter_cons, if_pos (by simp [ha])]
      have : t.filter (fun x => x.address = a) = [] := by
        rw [List.filter_eq_nil_iff]
        intro x hx hxa
        apply hnd.1
        simp only [decide_eq_true_eq] at hxa
        rw [ha, ← hxa]
        exact List.mem_map_of_mem _ hx
      rw [this]
    · have hha : h.address ≠ a := by
        intro he
        apply hnd.1
        rw [he, ← ha]
        exact List.mem_map_of_mem _ hwt
      rw [List.filter_cons, if_neg (by simp [hha])]
      exact ih hnd.2 w hwt a ha

lemma length_filter_addr_le_one :
    ∀ (ws : List Wallet), ((ws.map Wallet.address).Nodup) →
    ∀ (a : String), (ws.filter (fun x => x.address = a)).length ≤ 1 := by
  intro ws
  induction ws with
  | nil => intro _ a; simp
  | cons h t ih =>
    intro hnd a
    rw [List.map_cons, List.nodup_cons] at hnd
    by_cases hha : h.address = a
    · rw [List.filter_cons, if_pos (by simp [hha])]
      have : t.filter (fun x => x.address = a) = [] := by
        rw [List.filter_eq_nil_iff]
        intro x hx hxa
        apply hnd.1
        rw [hha]
        simp only [decide_eq_true_eq] at hxa
        rw [← hxa]
        exact List.mem_map_of_mem _ hx
      rw [this]
      simp
    · rw [List.filter_cons, if_neg (by simp [hha])]
      exact ih hnd.2 a

lemma mem_selectForUpdate (ws : List Wallet) (a1 a2 : String) (x : Wallet)
    (h : x ∈ selectForUpdate ws a1 a2) : x ∈ ws := by
  unfold selectForUpdate at h
  rcases List.mem_append.mp h with h | h <;> exact (List.mem_filter.mp h).1

lemma selectForUpdate_eq (ws : List Wallet) (a1 a2 : String) (wf wt : Wallet)
    (hnd : (ws.map Wallet.address).Nodup)
    (hwf : wf ∈ ws) (hwfa : wf.address = a1)
    (hwt : wt ∈ ws) (hwta : wt.address = a2) :
    selectForUpdate ws a1 a2 = [wf, wt] := by
  unfold selectForUpdate
  rw [filter_addr_of_nodup ws hnd wf hwf a1 hwfa,
    filter_addr_of_nodup ws hnd wt hwt a2 hwta]
  rfl

lemma selectForUpdate_pair (ws : List Wallet) (a1 a2 : String)
    (hnd : (ws.map Wallet.address).Nodup) (r0 r1 : Wallet)
    (h : selectForUpdate ws a1 a2 = [r0, r1]) :
    r0 ∈ ws ∧ r0.address = a1 ∧ r1 ∈ ws ∧ r1.address = a2 := by
  unfold selectForUpdate at h
  have h1 := length_filter_addr_le_one ws hnd a1
  have h2 := length_filter_addr_le_one ws hnd a2
  have hlen : (ws.filter (fun w => w.address = a1)).length
      + (ws.filter (fun w => w.address = a2)).length = 2 := by
    have := congrArg List.length h
    simpa using this
  obtain ⟨x, hx⟩ := List.length_eq_one.mp (by omega :
    (ws.filter (fun w => w.address = a1)).length = 1)
  obtain ⟨y, hy⟩ := List.length_eq_one.mp (by omega :
    (ws.filter (fun w => w.address = a2)).length = 1)
  rw [hx, hy] at h
  have hxy : x = r0 ∧ y = r1 := by simpa using h
  have hx0 : x ∈ ws ∧ x.address = a1 := by
    have hmem : x ∈ ws.filter (fun w => w.address = a1) := by
      rw [hx]; exact List.mem_singleton_self x
    have := List.mem_filter.mp hmem
    simpa using this
  have hy0 : y ∈ ws ∧ y.address = a2 := by
    have hmem : y ∈ ws.filter (fun w => w.address = a2) := by
      rw [hy]; exact List.mem_singleton_self y
    have := List.mem_filter.mp hmem
    simpa using this
  rw [← hxy.1, ← hxy.2]
  exact ⟨hx0.1, hx0.2, hy0.1, hy0.2⟩

lemma find?_updateBalance (ws : List Wallet) (a : String) (v : Int) (x : String) :
    (updateBalance ws a v).find? (fun w => w.address = x)
      = (ws.find? (fun w => w.address = x)).map
          (fun w => if w.address = a then { w with balance_cents := v } else w) := by
  unfold updateBalance
  have hp : ((fun w : Wallet => decide (w.address = x)) ∘ fun w =>
      if w.address = a then { w with balance_cents := v } else w)
      = (fun w : Wallet => decide (w.address = x)) := by
    funext w
    simp [Function.comp, address_updateFn]
  rw [List.find?_map, hp]

lemma sum_updateBalance :
    ∀ (ws : List Wallet), ((ws.map Wallet.address).Nodup) →
    ∀ w ∈ ws, ∀ (v : Int),
    ((updateBalance ws w.address v).map Wallet.balance_cents).sum
      = (ws.map Wallet.balance_cents).sum - w.balance_cents + v := by
  intro ws
  induction ws with
  | nil => intro _ w hw; cases hw
  | cons h t ih =>
    intro hnd w hw v
    rw [List.map_cons, List.nodup_cons] at hnd
    rcases List.mem_cons.mp hw with rfl | hwt
    · have ht : updateBalance t w.address v = t :=
        updateBalance_of_forall_ne t w.address v (fun x hx he => by
          apply hnd.1
          rw [← he]
          exact List.mem_map_of_mem _ hx)
      show ((updateBalance (w :: t) w.address v).map Wallet.balance_cents).sum = _
      have : updateBalance (w :: t) w.address v
          = { w with balance_cents := v } :: updateBalance t w.address v := by
        unfold updateBalance
        rw [List.map_cons, if_pos rfl]
      rw [this, ht, List.map_cons, List.map_cons, List.sum_cons, List.sum_cons]
      dsimp only
      omega
    · have hha : h.address ≠ w.address := by
        intro he
        apply hnd.1
        rw [he]
        exact List.mem_map_of_mem _ hwt
      have : updateBalance (h :: t) w.address v = h :: updateBalance t w.address v := by
        unfold updateBalance
        rw [List.map_cons, if_neg hha]
      rw [this, List.map_cons, List.map_cons, List.sum_cons, List.sum_cons,
        ih hnd.2 w hwt v]
      omega

lemma transferOnce_cases (st : DBState) (fromA toA : String) (amountCents : Int) :
    (transferOnce st fromA toA amountCents).1 = Except.ok ()
      ∨ (transferOnce st fromA toA amountCents).2 = st := by
  unfold transferOnce
  split
  · exact Or.inr rfl
  split
  · exact Or.inr rfl
  split
  · rename_i r0 r1 heq
    dsimp only
    by_cases hb : (if toA < fromA then r1.balance_cents else r0.balance_cents) < amountCents
    · rw [if_pos hb]
      exact Or.inr rfl
    · rw [if_neg hb]
      exact Or.inl rfl
  · exact Or.inr rfl

lemma transferOnce_eq_of_wallets (st : DBState) (fromA toA : String) (amountCents : Int)
    (wf wt : Wallet)
    (hnd : (st.wallets.map Wallet.address).Nodup)
    (hwf : wf ∈ st.wallets) (hwfa : wf.address = fromA)
    (hwt : wt ∈ st.wallets) (hwta : wt.address = toA)
    (hne : fromA ≠ toA) (hpos : 0 < amountCents) :
    transferOnce st fromA toA amountCents =
      if wf.balance_cents < amountCents then (Except.error GoError.insufficientFunds, st)
      else
        (Except.ok (),
          { wallets := updateBalance (updateBalance st.wallets fromA
              (wf.balance_cents - amountCents)) toA (wt.balance_cents + amountCents)
            transactions := st.transactions ++
              [{ from_address := fromA, to_address := toA, amount_cents := amountCents }] }) := by
  unfold transferOnce
  rw [if_neg hne, if_neg (not_le.mpr hpos)]
  by_cases hsw : toA < fromA
  · have hlo : lockOrder fromA toA = (toA, fromA) := by
      unfold lockOrder
      rw [if_pos hsw]
    rw [hlo]
    dsimp only
    rw [selectForUpdate_eq st.wallets toA fromA wt wf hnd hwt hwta hwf hwfa]
    dsimp only
    simp only [if_pos hsw]
  · have hlo : lockOrder fromA toA = (fromA, toA) := by
      unfold lockOrder
      rw [if_neg hsw]
    rw [hlo]
    dsimp only
    rw [selectForUpdate_eq st.wallets fromA toA wf wt hnd hwf hwfa hwt hwta]
    dsimp only
    simp only [if_neg hsw]

/-- Claim C4: for distinct participant addresses, the single locking
query of transferOnce names the two rows in the fixed lexicographic
order over addresses — the smaller address always comes first — and the
arrangement is identical when sender and receiver are interchanged. -/
theorem lockOrder_sorted_and_symmetric (fromA toA : String) (hne : fromA ≠ toA) :
    (lockOrder fromA toA).1 < (lockOrder fromA toA).2 ∧
    lockOrder fromA toA = lockOrder toA fromA := by
  unfold lockOrder
  rcases lt_trichotomy fromA toA with hlt | heq | hgt
  · rw [if_neg (asymm hlt), if_pos hlt]
    exact ⟨hlt, rfl⟩
  · exact absurd heq hne
  · rw [if_pos hgt, if_neg (asymm hgt)]
    exact ⟨hgt, rfl⟩

/-- Witness for the C4 theorem at the concrete address pair a, b. -/
theorem lockOrder_sorted_and_symmetric_witness :
    (lockOrder "a" "b").1 < (lockOrder "a" "b").2 ∧ lockOrder "a" "b" = lockOrder "b" "a" :=
  lockOrder_sorted_and_symmetric "a" "b" (by decide)

/-- Claim C7: transferOnce rejects a self transfer with the sentinel
ErrSameAddress and a non-positive amount with the dedicated
amount-must-be-positive error, both before opening the transaction, so
the database state is returned unchanged in either case. -/
theorem transferOnce_precondition_checks (st : DBState) (fromA toA : String)
    (amountCents : Int) :
    (fromA = toA →
      transferOnce st fromA toA amountCents = (Except.error GoError.sameAddress, st)) ∧
    (fromA ≠ toA → amountCents ≤ 0 →
      transferOnce st fromA toA amountCents = (Except.error GoError.amountNotPositive, st)) := by
  constructor
  · intro h
    unfold transferOnce
    rw [if_pos h]
  · intro h1 h2
    unfold transferOnce
    rw [if_neg h1, if_pos h2]

/-- Witness for the C7 theorem: a self transfer and a zero-amount
transfer against the empty store. -/
theorem transferOnce_precondition_checks_witness :
    transferOnce { wallets := [], transactions := [] } "a" "a" 5
      = (Except.error GoError.sameAddress, { wallets := [], transactions := [] }) ∧
    transferOnce { wallets := [], transactions := [] } "a" "b" 0
      = (Except.error GoError.amountNotPositive, { wallets := [], transactions := [] }) :=
  ⟨(transferOnce_precondition_checks _ "a" "a" 5).1 rfl,
   (transferOnce_precondition_checks _ "a" "b" 0).2 (by decide) (by decide)⟩

/-- Claim C8: when both wallets exist and the locked balance of the
sender is strictly below the amount, transferOnce fails with
ErrInsufficientFunds and the deferred rollback leaves both balances and
the transactions log exactly as they were. -/
theorem transferOnce_insufficient_funds (st : DBState) (fromA toA : String)
    (amountCents : Int) (wf wt : Wallet)
    (hnd : (st.wallets.map Wallet.address).Nodup)
    (hwf : wf ∈ st.wallets) (hwfa : wf.address = fromA)
    (hwt : wt ∈ st.wallets) (hwta : wt.address = toA)
    (hne : fromA ≠ toA) (hpos : 0 < amountCents)
    (hlt : wf.balance_cents < amountCents) :
    transferOnce st fromA toA amountCents = (Except.error GoError.insufficientFunds, st) := by
  rw [transferOnce_eq_of_wallets st fromA toA amountCents wf wt hnd hwf hwfa hwt hwta hne hpos,
    if_pos hlt]

/-- Witness for the C8 theorem: a sender with balance 100 attempting to
move 350 cents. -/
theorem transferOnce_insufficient_funds_witness :
    transferOnce
        { wallets := [{ address := "a", balance_cents := 100 },
            { address := "b", balance_cents := 10000 }], transactions := [] } "a" "b" 350
      = (Except.error GoError.insufficientFunds,
          { wallets := [{ address := "a", balance_cents := 100 },
              { address := "b", balance_cents := 10000 }], transactions := [] }) :=
  transferOnce_insufficient_funds _ "a" "b" 350
    { address := "a", balance_cents := 100 } { address := "b", balance_cents := 10000 }
    (by decide) (by decide) rfl (by decide) rfl (by decide) (by decide) (by decide)

/-- Claim C1: with both wallets present, distinct addresses, a positive
amount, and the sender holding at least the amount, transferOnce
commits: it reports ok, the sender balance drops by exactly the amount,
the receiver balance rises by exactly the amount, and exactly one
record with that sender, receiver and amount is appended to the
transactions log; moreover every non-ok outcome of transferOnce leaves
the database state untouched, so the three effects persist together or
not at all. -/
theorem transferOnce_success_effects (st : DBState) (fromA toA : String)
    (amountCents : Int) (wf wt : Wallet)
    (hnd : (st.wallets.map Wallet.address).Nodup)
    (hwf : wf ∈ st.wallets) (hwfa : wf.address = fromA)
    (hwt : wt ∈ st.wallets) (hwta : wt.address = toA)
    (hne : fromA ≠ toA) (hpos : 0 < amountCents)
    (hge : amountCents ≤ wf.balance_cents) :
    (transferOnce st fromA toA amountCents).1 = Except.ok () ∧
    GetBalance (transferOnce st fromA toA amountCents).2 fromA
      = Except.ok (wf.balance_cents - amountCents) ∧
    GetBalance (transferOnce st fromA toA amountCents).2 toA
      = Except.ok (wt.balance_cents + amountCents) ∧
    (transferOnce st fromA toA amountCents).2.transactions
      = st.transactions ++
          [{ from_address := fromA, to_address := toA, amount_cents := amountCents }] ∧
    (∀ (st2 : DBState) (f t : String) (a : Int),
      (transferOnce st2 f t a).1 ≠ Except.ok () → (transferOnce st2 f t a).2 = st2) := by
  have heq := transferOnce_eq_of_wallets st fromA toA amountCents wf wt hnd hwf hwfa hwt
    hwta hne hpos
  rw [if_neg (not_lt.mpr hge)] at heq
  refine ⟨by rw [heq], ?_, ?_, by rw [heq], ?_⟩
  · rw [heq]
    unfold GetBalance
    dsimp only
    rw [find?_updateBalance, find?_updateBalance,
      find?_addr_of_nodup st.wallets hnd wf hwf fromA hwfa]
    have h1 : (if wf.address = fromA then { wf with balance_cents
        := wf.balance_cents - amountCents } else wf)
        = { wf with balance_cents := wf.balance_cents - amountCents } := if_pos hwfa
    have h2 : (if ({ wf with balance_cents := wf.balance_cents - amountCents }
        : Wallet).address = toA then { wf with balance_cents
        := wt.balance_cents + amountCents } else { wf with balance_cents
        := wf.balance_cents - amountCents })
        = { wf with balance_cents := wf.balance_cents - amountCents } := by
      apply if_neg
      show ¬wf.address = toA
      rw [hwfa]
      exact hne
    simp only [Option.map_some', h1, h2]
  · rw [heq]
    unfold GetBalance
    dsimp only
    rw [find?_updateBalance, find?_updateBalance,
      find?_addr_of_nodup st.wallets hnd wt hwt toA hwta]
    have h1 : (if wt.address = fromA then { wt with balance_cents
        := wf.balance_cents - amountCents } else wt) = wt := by
      apply if_neg
      rw [hwta]
      exact fun h => hne h.symm
    have h2 : (if wt.address = toA then { wt with balance_cents
        := wt.balance_cents + amountCents } else wt)
        = { wt with balance_cents := wt.balance_cents + amountCents } := if_pos hwta
    simp only [Option.map_some', h1, h2]
  · intro st2 f t a hna
    rcases transferOnce_cases st2 f t a with hok | hst
    · exact absurd hok hna
    · exact hst

/-- Witness for the C1 theorem: the spec scenario of a 350-cent
transfer between two wallets holding 10000 cents each. -/
theorem transferOnce_success_effects_witness :
    (transferOnce
        { wallets := [{ address := "a", balance_cents := 10000 },
            { address := "b", balance_cents := 10000 }], transactions := [] } "a" "b" 350).1
      = Except.ok () ∧
    GetBalance (transferOnce
        { wallets := [{ address := "a", balance_cents := 10000 },
            { address := "b", balance_cents := 10000 }], transactions := [] } "a" "b" 350).2 "a"
      = Except.ok ((10000 : Int) - 350) ∧
    GetBalance (transferOnce
        { wallets := [{ address := "a", balance_cents := 10000 },
            { address := "b", balance_cents := 10000 }], transactions := [] } "a" "b" 350).2 "b"
      = Except.ok ((10000 : Int) + 350) ∧
    (transferOnce
        { wallets := [{ address := "a", balance_cents := 10000 },
            { address := "b", balance_cents := 10000 }], transactions := [] } "a" "b" 350).2.transactions
      = [] ++ [{ from_address := "a", to_address := "b", amount_cents := 350 }] := by
  have h := transferOnce_success_effects
    { wallets := [{ address := "a", balance_cents := 10000 },
        { address := "b", balance_cents := 10000 }], transactions := [] } "a" "b" 350
    { address := "a", balance_cents := 10000 } { address := "b", balance_cents := 10000 }
    (by decide) (by decide) rfl (by decide) rfl (by decide) (by decide) (by decide)
  exact ⟨h.1, h.2.1, h.2.2.1, h.2.2.2.1⟩

lemma transferOnce_wallets_map_address (st : DBState) (fromA toA : String)
    (amountCents : Int) :
    ((transferOnce st fromA toA amountCents).2.wallets).map Wallet.address
      = st.wallets.map Wallet.address := by
  unfold transferOnce
  split
  · rfl
  split
  · rfl
  split
  · rename_i r0 r1 heq
    dsimp only
    by_cases hb : (if toA < fromA then r1.balance_cents else r0.balance_cents) < amountCents
    · rw [if_pos hb]
    · rw [if_neg hb]
      dsimp only
      rw [updateBalance_map_address, updateBalance_map_address]
  · rfl

lemma reachable_nodup (st : DBState) (h : Reachable st) :
    (st.wallets.map Wallet.address).Nodup := by
  induction h with
  | seed addrs hnd hlen =>
    have hmap : ((SeedInitialWallets addrs).wallets.map Wallet.address) = addrs := by
      unfold SeedInitialWallets
      dsimp only
      rw [List.map_map]
      conv_rhs => rw [← List.map_id addrs]
      exact List.map_congr_left (fun a _ => rfl)
    rw [hmap]
    exact hnd
  | step st fromA toA amountCents hst ih =>
    rw [transferOnce_wallets_map_address]
    exact ih

/-- Claim C3: in every state reachable from initial population every
account balance is non-negative: seeding writes the positive fixed
starting balance and transferOnce preserves non-negativity of both
participants (the sender is debited only when its locked balance covers
the positive amount, the receiver only gains). -/
theorem reachable_balance_nonneg (st : DBState) (h : Reachable st) :
    ∀ w ∈ st.wallets, 0 ≤ w.balance_cents := by
  induction h with
  | seed addrs hnd hlen =>
    intro w hw
    unfold SeedInitialWallets at hw
    dsimp only at hw
    rcases List.mem_map.mp hw with ⟨a, _, rfl⟩
    norm_num [defaultBalanceCents]
  | step st fromA toA amountCents hst ih =>
    intro w
    unfold transferOnce
    split
    · exact ih w
    split
    · exact ih w
    split
    · rename_i hne0 ham0 hscr r0 r1 heq
      dsimp only
      by_cases hb : (if toA < fromA then r1.balance_cents else r0.balance_cents) < amountCents
      · rw [if_pos hb]
        exact ih w
      · rw [if_neg hb]
        dsimp only
        intro hw
        have hr0 : r0 ∈ st.wallets := mem_selectForUpdate _ _ _ r0
          (by rw [heq]; exact List.mem_cons_self _ _)
        have hr1 : r1 ∈ st.wallets := mem_selectForUpdate _ _ _ r1
          (by rw [heq]; exact List.mem_cons_of_mem _ (List.mem_cons_self _ _))
        have hfb : 0 ≤ (if toA < fromA then r1.balance_cents else r0.balance_cents) := by
          split
          · exact ih r1 hr1
          · exact ih r0 hr0
        have htb : 0 ≤ (if toA < fromA then r0.balance_cents else r1.balance_cents) := by
          split
          · exact ih r0 hr0
          · exact ih r1 hr1
        unfold updateBalance at hw
        rcases List.mem_map.mp hw with ⟨u1, hu1, rfl⟩
        rcases List.mem_map.mp hu1 with ⟨u, hu, rfl⟩
        by_cases h1u : u.address = fromA
        · rw [if_pos h1u]
          have hadr : ({ u with balance_cents
              := (if toA < fromA then r1.balance_cents else r0.balance_cents)
                - amountCents } : Wallet).address ≠ toA := by
            show u.address ≠ toA
            rw [h1u]
            exact hne0
          rw [if_neg hadr]
          dsimp only
          omega
        · rw [if_neg h1u]
          by_cases h2u : u.address = toA
          · rw [if_pos h2u]
            dsimp only
            omega
          · rw [if_neg h2u]
            exact ih u hu
    · exact ih w

/-- Witness for the C3 theorem: a freshly seeded wallet holds a
non-negative balance. -/
theorem reachable_balance_nonneg_witness :
    ({ address := "a0", balance_cents := defaultBalanceCents } : Wallet)
      ∈ (SeedInitialWallets seedAddrs).wallets ∧
    0 ≤ ({ address := "a0", balance_cents := defaultBalanceCents } : Wallet).balance_cents :=
  ⟨by decide,
   reachable_balance_nonneg _ (Reachable.seed seedAddrs (by decide) (by decide)) _ (by decide)⟩

/-- Claim C2: on every state reachable from initial population, a
transfer attempt — whether it commits or fails — leaves the sum of all
account balances unchanged; value is only moved between the two
participants. -/
theorem totalBalance_transferOnce (st : DBState) (hr : Reachable st)
    (fromA toA : String) (amountCents : Int) :
    totalBalance (transferOnce st fromA toA amountCents).2 = totalBalance st := by
  have hnd := reachable_nodup st hr
  unfold totalBalance
  unfold transferOnce
  split
  · rfl
  split
  · rfl
  split
  · rename_i hne0 ham0 hscr r0 r1 heq
    dsimp only
    by_cases hb : (if toA < fromA then r1.balance_cents else r0.balance_cents) < amountCents
    · rw [if_pos hb]
    · rw [if_neg hb]
      dsimp only
      obtain ⟨hr0, hr0a, hr1, hr1a⟩ := selectForUpdate_pair st.wallets _ _ hnd r0 r1 heq
      by_cases hsw : toA < fromA
      · have hlo : lockOrder fromA toA = (toA, fromA) := by
          unfold lockOrder
          rw [if_pos hsw]
        rw [hlo] at hr0a hr1a
        dsimp only at hr0a hr1a
        simp only [if_pos hsw]
        rw [← hr1a, ← hr0a]
        have hr0m : r0 ∈ updateBalance st.wallets r1.address
            (r1.balance_cents - amountCents) := by
          apply mem_updateBalance_of_ne st.wallets r1.address _ r0 hr0
          rw [hr0a, hr1a]
          exact fun hxy => hne0 hxy.symm
        have hnd2 : ((updateBalance st.wallets r1.address
            (r1.balance_cents - amountCents)).map Wallet.address).Nodup := by
          rw [updateBalance_map_address]
          exact hnd
        rw [sum_updateBalance _ hnd2 r0 hr0m (r0.balance_cents + amountCents),
          sum_updateBalance _ hnd r1 hr1 (r1.balance_cents - amountCents)]
        omega
      · have hlo : lockOrder fromA toA = (fromA, toA) := by
          unfold lockOrder
          rw [if_neg hsw]
        rw [hlo] at hr0a hr1a
        dsimp only at hr0a hr1a
        simp only [if_neg hsw]
        rw [← hr0a, ← hr1a]
        have hr1m : r1 ∈ updateBalance st.wallets r0.address
            (r0.balance_cents - amountCents) := by
          apply mem_updateBalance_of_ne st.wallets r0.address _ r1 hr1
          rw [hr1a, hr0a]
          exact fun hxy => hne0 hxy.symm
        have hnd2 : ((updateBalance st.wallets r0.address
            (r0.balance_cents - amountCents)).map Wallet.address).Nodup := by
          rw [updateBalance_map_address]
          exact hnd
        rw [sum_updateBalance _ hnd2 r1 hr1m (r1.balance_cents + amountCents),
          sum_updateBalance _ hnd r0 hr0 (r0.balance_cents - amountCents)]
        omega
  · rfl

/-- Witness for the C2 theorem: a 350-cent transfer between two seeded
wallets preserves the total balance. -/
theorem totalBalance_transferOnce_witness :
    totalBalance (transferOnce (SeedInitialWallets seedAddrs) "a0" "a1" 350).2
      = totalBalance (SeedInitialWallets seedAddrs) :=
  totalBalance_transferOnce _ (Reachable.seed seedAddrs (by decide) (by decide)) "a0" "a1" 350

lemma transferLoop_shift (attemptErr : Nat → Option GoError) (cancelDuring : Nat → Bool) :
    ∀ (k s fuel : Nat),
    (∀ i, s ≤ i → i < s + k → ∃ e, attemptErr i = some e ∧ isDeadlock e = true) →
    (∀ i, s ≤ i → i < s + k → cancelDuring i = false) →
    transferLoop attemptErr cancelDuring s (k + fuel)
      = transferLoop attemptErr cancelDuring (s + k) fuel := by
  intro k
  induction k with
  | zero =>
    intro s fuel _ _
    rw [Nat.zero_add, Nat.add_zero]
  | succ k ih =>
    intro s fuel hdead hcancel
    obtain ⟨e, he, hde⟩ := hdead s (le_refl s) (by omega)
    have hc := hcancel s (le_refl s) (by omega)
    have hstep : transferLoop attemptErr cancelDuring s (k + 1 + fuel)
        = transferLoop attemptErr cancelDuring (s + 1) (k + fuel) := by
      have hfuel : k + 1 + fuel = (k + fuel) + 1 := by omega
      rw [hfuel]
      show (match attemptErr s with
        | none => none
        | some e =>
          if isDeadlock e then
            if cancelDuring s then some GoError.ctxCanceled
            else transferLoop attemptErr cancelDuring (s + 1) (k + fuel)
          else some e) = _
      rw [he]
      dsimp only
      rw [if_pos hde, if_neg (by rw [hc]; exact Bool.false_ne_true)]
    rw [hstep]
    have hadd : s + (k + 1) = (s + 1) + k := by omega
    rw [hadd]
    exact ih (s + 1) fuel
      (fun i h1 h2 => hdead i (by omega) (by omega))
      (fun i h1 h2 => hcancel i (by omega) (by omega))

/-- Claim C5: when the first k attempts all failed with the classified
deadlock signal (and no cancellation fired), attempt k still runs:
its success ends the loop with ok and any non-deadlock error it
returns crosses to the caller unchanged with no further retry — so a
failed attempt is retried exactly when its error is the Postgres
40P01 deadlock signal; moreover the budget is a fixed 10 attempts and
the backoff grows strictly with the attempt number, plus a random
jitter in [0, 15) milliseconds. -/
theorem Transfer_retries_only_on_deadlock
    (attemptErr : Nat → Option GoError) (cancelDuring : Nat → Bool) (k : Nat)
    (hk : k < maxAttempts)
    (hdead : ∀ i, i < k → ∃ e, attemptErr i = some e ∧ isDeadlock e = true)
    (hcancel : ∀ i, i < k → cancelDuring i = false) :
    (attemptErr k = none → Transfer attemptErr cancelDuring = none) ∧
    (∀ e, attemptErr k = some e → isDeadlock e = false →
      Transfer attemptErr cancelDuring = some e) ∧
    maxAttempts = 10 ∧
    (∀ i j : Nat, i < j → backoffMs i < backoffMs j) ∧
    (∀ (i : Nat) (j : Fin 15), backoffMs i ≤ sleepMs i j ∧ sleepMs i j < backoffMs i + 15) := by
  obtain ⟨f, hf⟩ : ∃ f, maxAttempts - k = f + 1 := ⟨maxAttempts - k - 1, by omega⟩
  have hT : Transfer attemptErr cancelDuring
      = transferLoop attemptErr cancelDuring k (maxAttempts - k) := by
    unfold Transfer
    have h1 : maxAttempts = k + (maxAttempts - k) := by omega
    conv_lhs => rw [h1]
    have h2 := transferLoop_shift attemptErr cancelDuring k 0 (maxAttempts - k)
      (fun i _ h => hdead i (by omega)) (fun i _ h => hcancel i (by omega))
    rw [h2, Nat.zero_add]
  refine ⟨?_, ?_, rfl, ?_, ?_⟩
  · intro h
    rw [hT, hf]
    show (match attemptErr k with
      | none => none
      | some e =>
        if isDeadlock e then
          if cancelDuring k then some GoError.ctxCanceled
          else transferLoop attemptErr cancelDuring (k + 1) f
        else some e) = none
    rw [h]
  · intro e he hde
    rw [hT, hf]
    show (match attemptErr k with
      | none => none
      | some e =>
        if isDeadlock e then
          if cancelDuring k then some GoError.ctxCanceled
          else transferLoop attemptErr cancelDuring (k + 1) f
        else some e) = some e
    rw [he]
    dsimp only
    rw [if_neg (by rw [hde]; exact Bool.false_ne_true)]
  · intro i j hij
    unfold backoffMs
    omega
  · intro i j
    have hj := j.isLt
    unfold sleepMs backoffMs
    omega

/-- Witness for the C5 theorem: one deadlock on attempt 0, then an
unclassified storage error on attempt 1 that is returned unchanged. -/
theorem Transfer_retries_only_on_deadlock_witness :
    Transfer (fun i => if i = 0 then some (GoError.pg "40P01")
        else some (GoError.other "disk failure")) (fun _ => false)
      = some (GoError.other "disk failure") :=
  (Transfer_retries_only_on_deadlock _ _ 1 (by decide)
    (fun i hi => by
      have h0 : i = 0 := by omega
      subst h0
      exact ⟨GoError.pg "40P01", rfl, by decide⟩)
    (fun i _ => rfl)).2.1 (GoError.other "disk failure") (by decide) (by decide)

/-- Claim C6 counterexample: when every one of the 10 attempts fails
with the deadlock signal, Transfer does return the dedicated
retries-exhausted error, but the boundary layer maps it to exactly the
same response as an unclassified storage error, so the caller of the
endpoint cannot tell the two outcomes apart. -/
theorem postSend_conflates_exhaustion_with_internal :
    Transfer (fun _ => some (GoError.pg "40P01")) (fun _ => false)
      = some GoError.retriesExhausted ∧
    postSendErrStatus GoError.retriesExhausted
      = postSendErrStatus (GoError.other "disk failure") := by
  exact ⟨by decide, rfl⟩

/-- Claim C6 (amended): exhausting the 10-attempt budget yields the
dedicated could-not-complete-transfer error, an error value distinct
from each sentinel error of the engine; the boundary layer however
sends it through the default branch to the same 500 internal-error
response it uses for unclassified storage failures. -/
theorem Transfer_exhaustion_outcome :
    Transfer (fun _ => some (GoError.pg "40P01")) (fun _ => false)
      = some GoError.retriesExhausted ∧
    GoError.retriesExhausted ≠ GoError.walletNotFound ∧
    GoError.retriesExhausted ≠ GoError.insufficientFunds ∧
    GoError.retriesExhausted ≠ GoError.sameAddress ∧
    postSendErrStatus GoError.retriesExhausted = (500, "internal error") := by
  exact ⟨by decide, by decide, by decide, by decide, rfl⟩

lemma length_take_toNat (k : Int) (l : List Transaction) :
    (l.take k.toNat).length ≤ k.toNat := by
  rw [List.length_take]
  exact Nat.min_le_left _ _

/-- Claim C9 (amended): GetLastTransactions clamps its limit — a
non-positive or absent count yields at most 10 records and any count
yields at most 100 — and the records come back in the
created_at-descending order the store produced; equal-timestamp
records stay in the store's order, because the query has no secondary
sort key on the record identifier. -/
theorem GetLastTransactions_clamped_and_sorted (n : Int) (rows : List Transaction)
    (hs : rows.Pairwise (fun a b => b.CreatedAt ≤ a.CreatedAt)) :
    (GetLastTransactions n rows).length ≤ 100 ∧
    (n ≤ 0 → (GetLastTransactions n rows).length ≤ 10) ∧
    (GetLastTransactions (handlerCount none) rows).length ≤ 10 ∧
    (GetLastTransactions n rows).Pairwise (fun a b => b.CreatedAt ≤ a.CreatedAt) := by
  refine ⟨?_, ?_, ?_, ?_⟩
  · unfold GetLastTransactions
    dsimp only
    refine le_trans (length_take_toNat _ rows) ?_
    split_ifs <;> omega
  · intro hn
    unfold GetLastTransactions
    dsimp only
    refine le_trans (length_take_toNat _ rows) ?_
    rw [if_pos hn, if_neg (by omega)]
    omega
  · have hc : handlerCount none = 10 := by decide
    rw [hc]
    unfold GetLastTransactions
    dsimp only
    refine le_trans (length_take_toNat _ rows) ?_
    rw [if_neg (by omega), if_neg (by omega)]
    omega
  · exact List.Pairwise.sublist (List.take_sublist _ _) hs

/-- Claim C9 counterexample: the query has no identifier tie-break.
Both arrangements of two records sharing a created_at are legitimate
created_at-descending store responses, and GetLastTransactions returns
each verbatim — so the output order on ties follows the store's
arbitrary choice, and whichever identifier order the claim intends is
violated by one of the two runs. -/
theorem GetLastTransactions_no_id_tiebreak :
    [tx1, tx2].Pairwise (fun a b => b.CreatedAt ≤ a.CreatedAt) ∧
    [tx2, tx1].Pairwise (fun a b => b.CreatedAt ≤ a.CreatedAt) ∧
    GetLastTransactions 10 [tx1, tx2] = [tx1, tx2] ∧
    GetLastTransactions 10 [tx2, tx1] = [tx2, tx1] ∧
    tx1.ID < tx2.ID ∧ tx1.CreatedAt = tx2.CreatedAt ∧ tx1 ≠ tx2 := by
  exact ⟨by decide, by decide, by decide, by decide, by decide, rfl, by decide⟩

/-- Witness for the amended C9 theorem at a negative count over the
two concrete records. -/
theorem GetLastTransactions_clamped_and_sorted_witness :
    (GetLastTransactions (-3) [tx1, tx2]).length ≤ 100 ∧
    (GetLastTransactions (-3) [tx1, tx2]).length ≤ 10 ∧
    (GetLastTransactions (handlerCount none) [tx1, tx2]).length ≤ 10 ∧
    (GetLastTransactions (-3) [tx1, tx2]).Pairwise (fun a b => b.CreatedAt ≤ a.CreatedAt) :=
  have h := GetLastTransactions_clamped_and_sorted (-3) [tx1, tx2] (by decide)
  ⟨h.1, h.2.1 (by decide), h.2.2.1, h.2.2.2⟩

/-- Claim C10: postSend reaches the transfer engine only when both
address strings are exactly 64 bytes long; a request in which either
address has any other length is answered with the
invalid-address-format rejection, before the engine — and hence any
storage access — is reached. -/
theorem postSend_address_length (req : SendReq) :
    (req.From.utf8ByteSize ≠ 64 ∨ req.To.utf8ByteSize ≠ 64 →
      postSend (some req) = SendOutcome.rejected 400 "invalid address format") ∧
    (∀ (f t : String) (c : Int), postSend (some req) = SendOutcome.engine f t c →
      req.From.utf8ByteSize = 64 ∧ req.To.utf8ByteSize = 64) := by
  constructor
  · intro h
    unfold postSend
    dsimp only
    rw [if_pos h]
  · intro f t c h
    unfold postSend at h
    dsimp only at h
    by_cases h1 : req.From.utf8ByteSize ≠ 64 ∨ req.To.utf8ByteSize ≠ 64
    · rw [if_pos h1] at h
      exact absurd h (by simp)
    · push_neg at h1
      exact h1

/-- Witness for the C10 theorem: a short-address request is rejected
with the invalid-address-format response. -/
theorem postSend_address_length_witness :
    postSend (some { From := "abc", To := "def", Amount := 1 })
      = SendOutcome.rejected 400 "invalid address format" :=
  (postSend_address_length _).1 (by decide)

end WalletService
